import Mathlib

/-!
Verification of `migrate_titles.py`, a one-shot batch tool that rewrites
note files so that the body starts with a heading equal to the stored
title from the metadata header.  Strings are modelled as `List Char`;
each Python helper is translated to a Lean function of the same name.
-/

/-- ASCII whitespace as recognised by Python `str.strip()`. -/
def pyIsSpace (c : Char) : Bool :=
  c = ' ' || c = '\t' || c = '\n' || c = '\r' || c = '\x0b' || c = '\x0c'

/-- Python `s.strip()`: drop whitespace from both ends. -/
def pyStrip (l : List Char) : List Char :=
  (((l.dropWhile pyIsSpace).reverse).dropWhile pyIsSpace).reverse

/-- The delimiter `"---\n"` that `content.split('---\n', 2)` splits on. -/
def sepL : List Char := ['-', '-', '-', '\n']

/-- Three dashes, the marker token without its newline. -/
def dashes : List Char := ['-', '-', '-']

/-- Split a list at the leftmost occurrence of `sep`, returning the part
before the occurrence and the part after it (Python `split(sep, 1)`). -/
def splitFirst (sep : List Char) : List Char → Option (List Char × List Char)
  | [] => none
  | c :: cs =>
    if sep.isPrefixOf (c :: cs) then some ([], (c :: cs).drop sep.length)
    else
      match splitFirst sep cs with
      | none => none
      | some (a, r) => some (c :: a, r)

/-- `parse_note_file`: `content.split('---\n', 2)` must yield three parts;
parts 1 and 2 are returned stripped, else the file is not parseable. -/
def parse_note_file (content : List Char) : Option (List Char × List Char) :=
  match splitFirst sepL content with
  | none => none
  | some (_, r1) =>
    match splitFirst sepL r1 with
    | none => none
    | some (p1, p2) => some (pyStrip p1, pyStrip p2)

/-- Python `'\n'`-split of a string into its lines (`str.split('\n')`). -/
def splitLines : List Char → List (List Char)
  | [] => [[]]
  | c :: rest =>
    if c = '\n' then [] :: splitLines rest
    else
      match splitLines rest with
      | h :: t => (c :: h) :: t
      | [] => [[c]]

/-- The key `"title:"` looked for by the title extractor. -/
def titleKey : List Char := ['t', 'i', 't', 'l', 'e', ':']

/-- `re.sub(r'^["\x27]|["\x27]$', '', t)`: remove one leading quote
character if present, then one trailing quote character if present. -/
def stripQuotes (l : List Char) : List Char :=
  let l1 :=
    match l with
    | c :: rest => if c = '\x22' ∨ c = '\x27' then rest else l
    | [] => []
  match l1.getLast? with
  | some c => if c = '\x22' ∨ c = '\x27' then l1.dropLast else l1
  | none => l1

/-- Scan lines in order for the first one starting with `title:`. -/
def extractFromLines : List (List Char) → List Char
  | [] => []
  | line :: rest =>
    if titleKey.isPrefixOf line then stripQuotes (pyStrip (line.drop 6))
    else extractFromLines rest

/-- `extract_title_from_yaml`: first `title:` line wins; quotes stripped. -/
def extract_title_from_yaml (yaml_content : List Char) : List Char :=
  extractFromLines (splitLines yaml_content)

/-- `re.sub(r'^#+\s*', '', s)`: when the line starts with `#`, drop all
leading `#` characters and any whitespace that follows them. -/
def stripHeading (l : List Char) : List Char :=
  match l with
  | c :: _ =>
    if c = '#' then (l.dropWhile (fun x => x = '#')).dropWhile pyIsSpace else l
  | [] => l

/-- `get_first_line_title`: first line (`split('\n')[0]`), stripped, with
markdown heading markers removed. -/
def get_first_line_title (content : List Char) : List Char :=
  if content = [] then []
  else stripHeading (pyStrip (content.takeWhile (fun c => c ≠ '\n')))

/-- The template placeholder `"\x7b\x7b"` (two opening braces). -/
def templ : List Char := ['\x7b', '\x7b']

/-- Python `pat in s`: substring containment. -/
def containsSub (pat : List Char) : List Char → Bool
  | [] => pat.isEmpty
  | c :: rest => pat.isPrefixOf (c :: rest) || containsSub pat rest

/-- `needs_migration`: empty title is fine; template titles always flag;
otherwise flag exactly when the first line differs from the title. -/
def needs_migration (stored_title first_line : List Char) : Bool :=
  if stored_title = [] then false
  else if containsSub templ stored_title then true
  else first_line ≠ stored_title

/-- The new body built by `migrate_note`: `f"# \x7bstored_title\x7d\n\n\x7bnote_content\x7d"`. -/
def new_content (stored_title note_content : List Char) : List Char :=
  '#' :: ' ' :: (stored_title ++ '\n' :: '\n' :: note_content)

/-- The full file text written by `migrate_note`:
`f"---\n\x7byaml_content\x7d\n---\n\n\x7bnew_content\x7d\n"`. -/
def migrate_note (stored_title yaml_content note_content : List Char) : List Char :=
  sepL ++ yaml_content ++ '\n' :: sepL ++ '\n' :: (new_content stored_title note_content ++ ['\n'])

/-- Reserialization of a parsed note with no content change, in the
writer's format: `"---\n" + yaml + "\n---\n\n" + body + "\n"`. -/
def reserialize (yaml_content note_content : List Char) : List Char :=
  sepL ++ yaml_content ++ '\n' :: sepL ++ '\n' :: (note_content ++ ['\n'])

/-- The reserved prefix `".notebook"` marking notebook marker files. -/
def notebookKey : List Char := ['.', 'n', 'o', 't', 'e', 'b', 'o', 'o', 'k']

/-- The classification `main` prints for one analyzed file. -/
inductive Classification where
  | skipUnparseable
  | skipMarker
  | skipTemplate
  | needsMig
  | ok
deriving DecidableEq, Repr

/-- Per-file analysis of `main`: parse, extract, then the ordered checks. -/
def classify (content : List Char) : Classification :=
  match parse_note_file content with
  | none => .skipUnparseable
  | some (yaml, body) =>
    let stored := extract_title_from_yaml yaml
    let fl := get_first_line_title body
    if notebookKey.isPrefixOf stored then .skipMarker
    else if containsSub templ stored then .skipTemplate
    else if needs_migration stored fl then .needsMig
    else .ok

/-- A migration record `(path, stored_title, yaml_content, note_content)`. -/
abbrev Record := List Char × List Char × List Char × List Char

/-- The record `main` appends to `notes_to_migrate` for one file, if any. -/
def analyzeFile (path content : List Char) : Option Record :=
  match parse_note_file content with
  | none => none
  | some (yaml, body) =>
    let stored := extract_title_from_yaml yaml
    let fl := get_first_line_title body
    if notebookKey.isPrefixOf stored then none
    else if containsSub templ stored then none
    else if needs_migration stored fl then some (path, stored, yaml, body)
    else none

/-- A filesystem snapshot: association list from path to file content. -/
abbrev FileSys := List (List Char × List Char)

/-- Overwrite the file at `path` with `content` (in-place rewrite). -/
def writeFS (fs : FileSys) (path content : List Char) : FileSys :=
  fs.map (fun f => if f.1 = path then (f.1, content) else f)

/-- Python `response.lower()`, character by character. -/
def pyLower (l : List Char) : List Char := l.map Char.toLower

/-- The migration loop of `main`: each record is attempted in order; a
write failure (`writeOk path = false`, the per-file caught exception) is
logged and skipped, a success rewrites the file via `migrate_note`.
Returns the final filesystem, the writes performed, the number of
successful migrations, and the number of records attempted. -/
def migrateLoop (writeOk : List Char → Bool) :
    List Record → FileSys → FileSys × List (List Char × List Char) × Nat × Nat
  | [], fs => (fs, [], 0, 0)
  | (path, t, y, b) :: rest, fs =>
    if writeOk path then
      let c := migrate_note t y b
      let out := migrateLoop writeOk rest (writeFS fs path c)
      (out.1, (path, c) :: out.2.1, out.2.2.1 + 1, out.2.2.2 + 1)
    else
      let out := migrateLoop writeOk rest fs
      (out.1, out.2.1, out.2.2.1, out.2.2.2 + 1)

/-- Observable outcome of one run of `main` (after the notes directory
was found): process exit code, final file contents, whether the backup
directory exists at exit, writes performed, migrated count, and number
of pending records attempted in the migrate phase. -/
structure RunOutcome where
  exitCode : Nat
  files : FileSys
  backupExists : Bool
  writes : List (List Char × List Char)
  migratedCount : Nat
  attempted : Nat
deriving DecidableEq, Repr

/-- `main`, after the notes-directory check: back up, analyze each file
in order, confirm when something is pending, then migrate.  `response`
is the answer read at the confirmation prompt; `writeOk` tells which
file writes succeed. -/
def runMain (writeOk : List Char → Bool) (files : FileSys) (response : List Char) :
    RunOutcome :=
  let pending := files.filterMap (fun f => analyzeFile f.1 f.2)
  if files = [] then ⟨0, files, true, [], 0, 0⟩
  else if pending = [] then ⟨0, files, true, [], 0, 0⟩
  else if pyLower response ≠ ['y'] then ⟨0, files, true, [], 0, 0⟩
  else
    let out := migrateLoop writeOk pending files
    ⟨0, out.1, true, out.2.1, out.2.2.1, out.2.2.2⟩

/-! ### Spec-side definitions, written from the specification's words,
to be compared with the source-derived functions above. -/

/-- Spec wording: strip one leading quote character (double or single)
when the value starts with one. -/
def stripLeadQuote (l : List Char) : List Char :=
  match l with
  | c :: rest => if c = '\x22' ∨ c = '\x27' then rest else l
  | [] => []

/-- Spec wording: strip one trailing quote character (double or single)
when the value ends with one. -/
def stripTrailQuote (l : List Char) : List Char :=
  match l.getLast? with
  | some c => if c = '\x22' ∨ c = '\x27' then l.dropLast else l
  | none => l

/-- Title extraction as the amended spec describes it: the first line
beginning with the `title:` key wins, its value is trimmed, then one
leading quote and one trailing quote are stripped independently; empty
string when no such line exists. -/
def extractTitleSpec (yaml_content : List Char) : List Char :=
  match (splitLines yaml_content).find? (fun line => titleKey.isPrefixOf line) with
  | none => []
  | some line => stripTrailQuote (stripLeadQuote (pyStrip (line.drop 6)))

/-- Body first line as the amended spec describes it: the first line,
trimmed; when it begins with `#`, all leading `#` characters and any
whitespace after them are removed (whitespace not required). -/
def firstLineSpec (content : List Char) : List Char :=
  if content = [] then []
  else
    let fl := pyStrip (content.takeWhile (fun c => c ≠ '\n'))
    if fl.head? = some '#' then (fl.dropWhile (fun x => x = '#')).dropWhile pyIsSpace
    else fl

/-! ### Lemmas about `splitFirst` -/

theorem splitFirst_eq_append (sep : List Char) :
    ∀ l a r, splitFirst sep l = some (a, r) → l = a ++ sep ++ r := by
  intro l
  induction l with
  | nil => intro a r h; simp [splitFirst] at h
  | cons c cs ih =>
    intro a r h
    by_cases hp : sep.isPrefixOf (c :: cs)
    · simp only [splitFirst, if_pos hp] at h
      obtain ⟨t, ht⟩ := List.isPrefixOf_iff_prefix.mp hp
      injection h with h
      injection h with ha hr
      subst ha
      rw [← hr, ← ht, List.drop_left]
      simp
    · simp only [splitFirst, if_neg hp] at h
      cases hsp : splitFirst sep cs with
      | none => rw [hsp] at h; exact absurd h (by simp)
      | some ar =>
        obtain ⟨a1, r1⟩ := ar
        rw [hsp] at h
        injection h with h
        injection h with ha hr
        subst ha hr
        simpa using ih a1 r1 hsp

theorem splitFirst_min (sep : List Char) :
    ∀ l a r, splitFirst sep l = some (a, r) →
      ∀ x y, l = x ++ sep ++ y → a.length ≤ x.length := by
  intro l
  induction l with
  | nil => intro a r h; simp [splitFirst] at h
  | cons c cs ih =>
    intro a r h x y hxy
    by_cases hp : sep.isPrefixOf (c :: cs)
    · simp only [splitFirst, if_pos hp] at h
      injection h with h
      injection h with ha _
      subst ha
      simp
    · simp only [splitFirst, if_neg hp] at h
      cases hsp : splitFirst sep cs with
      | none => rw [hsp] at h; exact absurd h (by simp)
      | some ar =>
        obtain ⟨a1, r1⟩ := ar
        rw [hsp] at h
        injection h with h
        injection h with ha hr
        subst ha hr
        cases x with
        | nil =>
          exfalso
          apply hp
          apply List.isPrefixOf_iff_prefix.mpr
          simp only [List.nil_append] at hxy
          exact hxy ▸ List.prefix_append sep y
        | cons d x1 =>
          simp only [List.cons_append, List.cons.injEq] at hxy
          have := ih a1 r1 hsp x1 y hxy.2
          simpa using Nat.succ_le_succ this

theorem splitFirst_isSome (sep : List Char) (hsep : sep ≠ []) :
    ∀ x y, (splitFirst sep (x ++ sep ++ y)).isSome := by
  cases sep with
  | nil => exact absurd rfl hsep
  | cons s ss =>
    intro x
    induction x with
    | nil =>
      intro y
      simp only [List.nil_append, List.cons_append, splitFirst]
      rw [if_pos (by simp)]
      rfl
    | cons c x1 ih =>
      intro y
      simp only [List.cons_append, List.append_assoc, splitFirst]
      split
      · rfl
      · have := ih y
        simp only [List.append_assoc] at this
        simp only [List.append_eq, List.append_assoc]
        cases hsp : splitFirst (s :: ss) (x1 ++ ((s :: ss) ++ y)) with
        | none => rw [hsp] at this; simp at this
        | some ar => obtain ⟨a1, r1⟩ := ar; rfl

theorem splitFirst_sepL_self (z : List Char) : splitFirst sepL (sepL ++ z) = some ([], z) := by
  show splitFirst sepL ('-' :: '-' :: '-' :: '\n' :: z) = some ([], z)
  rw [splitFirst, if_pos (by simp [sepL, List.isPrefixOf])]
  simp [sepL]

theorem splitFirst_concat (z : List Char) :
    ∀ m : List Char,
      (∀ t, t <:+ m → sepL.isPrefixOf (t ++ '\n' :: (sepL ++ z)) = false) →
      splitFirst sepL (m ++ '\n' :: (sepL ++ z)) = some (m ++ ['\n'], z) := by
  intro m
  induction m with
  | nil =>
    intro _
    show splitFirst sepL ('\n' :: (sepL ++ z)) = some (['\n'], z)
    rw [splitFirst, if_neg (by simp [sepL, List.isPrefixOf])]
    rw [splitFirst_sepL_self]
  | cons c m' ih =>
    intro h
    show splitFirst sepL (c :: (m' ++ '\n' :: (sepL ++ z))) = some (c :: (m' ++ ['\n']), z)
    have hc : sepL.isPrefixOf (c :: (m' ++ '\n' :: (sepL ++ z))) = false := by
      simpa using h (c :: m') (List.suffix_refl _)
    rw [splitFirst, if_neg (by simp [hc])]
    rw [ih (fun t ht => h t (ht.trans (List.suffix_cons c m')))]

theorem pyIsSpace_nl : pyIsSpace '\n' = true := by rfl

theorem pyStrip_cons_nl (l : List Char) : pyStrip ('\n' :: l) = pyStrip l := by
  simp [pyStrip, List.dropWhile_cons, pyIsSpace_nl]

theorem pyStrip_append_nl (l : List Char) : pyStrip (l ++ ['\n']) = pyStrip l := by
  unfold pyStrip
  rw [List.dropWhile_append]
  by_cases hd : (l.dropWhile pyIsSpace).isEmpty
  · rw [if_pos hd]
    have h0 : l.dropWhile pyIsSpace = [] := List.isEmpty_iff.mp hd
    rw [h0]
    rfl
  · rw [if_neg hd]
    rw [List.reverse_append]
    simp [List.dropWhile_cons, pyIsSpace_nl]

theorem noCross (m z : List Char) (h1 : ¬ sepL <:+: m) (h2 : ¬ dashes <:+ m) :
    ∀ t, t <:+ m → sepL.isPrefixOf (t ++ '\n' :: (sepL ++ z)) = false := by
  intro t ht
  cases t with
  | nil => simp [sepL, List.isPrefixOf]
  | cons a t1 =>
    cases t1 with
    | nil => simp [sepL, List.isPrefixOf]
    | cons b t2 =>
      cases t2 with
      | nil => simp [sepL, List.isPrefixOf]
      | cons c3 t3 =>
        cases t3 with
        | nil =>
          by_contra hx
          have hx' : sepL.isPrefixOf ([a, b, c3] ++ '\n' :: (sepL ++ z)) = true := by
            simpa using hx
          simp [sepL, List.isPrefixOf] at hx'
          obtain ⟨ha, hb, hc⟩ := hx'
          apply h2
          rw [← ha, ← hb, ← hc] at ht
          exact ht
        | cons d t4 =>
          by_contra hx
          have hx' : sepL.isPrefixOf ((a :: b :: c3 :: d :: t4) ++ '\n' :: (sepL ++ z)) = true := by
            simpa using hx
          simp [sepL, List.isPrefixOf] at hx'
          obtain ⟨ha, hb, hc, hd⟩ := hx'
          apply h1
          have hpre : sepL <+: (a :: b :: c3 :: d :: t4) := by
            rw [← ha, ← hb, ← hc, ← hd]
            exact ⟨t4, rfl⟩
          exact List.infix_iff_prefix_suffix.mpr ⟨_, hpre, ht⟩

/-- C9 (amended): reserializing a parsed metadata block and body in the
writer's format and parsing again is the identity, provided the metadata
block (already trimmed, and never containing the delimiter `"---\n"`
when produced by the parser) does not end in the three-dash marker;
without that proviso the claim fails, see the counterexample. -/
theorem C9_roundtrip_amended (m b : List Char)
    (hm : pyStrip m = m) (hb : pyStrip b = b)
    (h1 : ¬ sepL <:+: m) (h2 : ¬ dashes <:+ m) :
    parse_note_file (reserialize m b) = some (m, b) := by
  have e1 := splitFirst_sepL_self (m ++ '\n' :: (sepL ++ ('\n' :: (b ++ ['\n']))))
  have e2 := splitFirst_concat ('\n' :: (b ++ ['\n'])) m (noCross m ('\n' :: (b ++ ['\n'])) h1 h2)
  unfold reserialize
  simp only [List.append_assoc, List.cons_append]
  simp only [parse_note_file, e1, e2]
  rw [pyStrip_append_nl, hm, pyStrip_cons_nl, pyStrip_append_nl, hb]

theorem sepL_ne_nil : sepL ≠ [] := by simp [sepL]

theorem parse_some_decomp (content y bdy : List Char)
    (h : parse_note_file content = some (y, bdy)) :
    ∃ a b c, content = a ++ sepL ++ b ++ sepL ++ c ∧ y = pyStrip b ∧ bdy = pyStrip c ∧
      (∀ x z, content = x ++ sepL ++ z → a.length ≤ x.length) ∧
      (∀ x z, b ++ sepL ++ c = x ++ sepL ++ z → b.length ≤ x.length) := by
  cases hs1 : splitFirst sepL content with
  | none => simp [parse_note_file, hs1] at h
  | some ar =>
    obtain ⟨a1, r1⟩ := ar
    cases hs2 : splitFirst sepL r1 with
    | none => simp [parse_note_file, hs1, hs2] at h
    | some pr =>
      obtain ⟨p1, p2⟩ := pr
      simp only [parse_note_file, hs1, hs2, Option.some.injEq, Prod.mk.injEq] at h
      obtain ⟨hy, hb2⟩ := h
      have ea := splitFirst_eq_append sepL content a1 r1 hs1
      have eb := splitFirst_eq_append sepL r1 p1 p2 hs2
      refine ⟨a1, p1, p2, ?_, hy.symm, hb2.symm, ?_, ?_⟩
      · rw [ea, eb]
        simp [List.append_assoc]
      · exact splitFirst_min sepL content a1 r1 hs1
      · intro x z hx
        refine splitFirst_min sepL r1 p1 p2 hs2 x z ?_
        rw [eb]
        exact hx

theorem parse_isSome_of_decomp (content a b c : List Char)
    (h : content = a ++ sepL ++ b ++ sepL ++ c) : (parse_note_file content).isSome := by
  have h1 : content = a ++ sepL ++ (b ++ sepL ++ c) := by rw [h]; simp [List.append_assoc]
  have hs1 := splitFirst_isSome sepL sepL_ne_nil a (b ++ sepL ++ c)
  rw [← h1] at hs1
  obtain ⟨⟨a1, r1⟩, hsome⟩ := Option.isSome_iff_exists.mp hs1
  have ea := splitFirst_eq_append sepL content a1 r1 hsome
  have hmin := splitFirst_min sepL content a1 r1 hsome a (b ++ sepL ++ c) h1
  have hpa1 : a1 <+: a := by
    have p1 : a1 <+: content := ⟨sepL ++ r1, by rw [ea]; simp [List.append_assoc]⟩
    have p2 : a <+: content := ⟨sepL ++ (b ++ sepL ++ c), by rw [h1]; simp [List.append_assoc]⟩
    rcases List.prefix_or_prefix_of_prefix p1 p2 with hc | hc
    · exact hc
    · have heq : a = a1 := List.IsPrefix.eq_of_length hc (Nat.le_antisymm hc.length_le hmin)
      rw [heq]
  obtain ⟨t, ht⟩ := hpa1
  have hcanc : sepL ++ r1 = t ++ sepL ++ b ++ sepL ++ c := by
    have hstep : a1 ++ (sepL ++ r1) = a1 ++ (t ++ sepL ++ b ++ sepL ++ c) := by
      calc a1 ++ (sepL ++ r1) = content := by rw [ea]; simp [List.append_assoc]
      _ = a ++ sepL ++ b ++ sepL ++ c := h
      _ = a1 ++ (t ++ sepL ++ b ++ sepL ++ c) := by rw [← ht]; simp [List.append_assoc]
    exact List.append_cancel_left hstep
  have hr1 : r1 = (List.drop sepL.length (t ++ sepL ++ b)) ++ sepL ++ c := by
    have hd := congrArg (List.drop sepL.length) hcanc
    rw [List.drop_left] at hd
    have hre : t ++ sepL ++ b ++ sepL ++ c = (t ++ sepL ++ b) ++ (sepL ++ c) := by
      simp [List.append_assoc]
    rw [hre] at hd
    rw [List.drop_append_of_le_length (by simp [List.length_append]; omega)] at hd
    rw [hd]
    simp [List.append_assoc]
  have hs2 : (splitFirst sepL r1).isSome := by
    have hx := splitFirst_isSome sepL sepL_ne_nil (List.drop sepL.length (t ++ sepL ++ b)) c
    rw [← hr1] at hx
    exact hx
  obtain ⟨⟨p1, p2⟩, hs2e⟩ := Option.isSome_iff_exists.mp hs2
  simp [parse_note_file, hsome, hs2e]

/-! ### Lemmas about the migrate loop -/

theorem migrateLoop_attempted (writeOk : List Char → Bool) :
    ∀ (pend : List Record) (fs : FileSys),
      (migrateLoop writeOk pend fs).2.2.2 = pend.length := by
  intro pend
  induction pend with
  | nil => intro fs; simp [migrateLoop]
  | cons r rest ih =>
    intro fs
    obtain ⟨p, t, y, b⟩ := r
    by_cases hw : writeOk p = true
    · simp [migrateLoop, hw, ih]
    · simp only [Bool.not_eq_true] at hw
      simp [migrateLoop, hw, ih]

theorem migrateLoop_count (writeOk : List Char → Bool) :
    ∀ (pend : List Record) (fs : FileSys),
      (migrateLoop writeOk pend fs).2.2.1 =
        (pend.filter (fun r => writeOk r.1)).length := by
  intro pend
  induction pend with
  | nil => intro fs; simp [migrateLoop]
  | cons r rest ih =>
    intro fs
    obtain ⟨p, t, y, b⟩ := r
    by_cases hw : writeOk p = true
    · simp [migrateLoop, hw, ih, List.filter_cons]
    · simp only [Bool.not_eq_true] at hw
      simp [migrateLoop, hw, ih, List.filter_cons]

/-! ### Claims -/

/-- C1: for every migration record with stored title `t`, metadata block
`m` and original (trimmed) body `b`, the writer produces the new body
`"# " + t + "\n\n" + b` and writes the full file content
`"---\n" + m + "\n---\n\n" + new body + "\n"`; in particular the
Grocery-List scenario body migrates as the spec states. -/
theorem C1_migration_writer (t m b : List Char) :
    migrate_note t m b =
      "---\n".toList ++ m ++ "\n---\n\n".toList ++
        ("# ".toList ++ t ++ "\n\n".toList ++ b) ++ "\n".toList ∧
    new_content "Grocery List".toList "Grocery Lists\nMilk\nEggs".toList =
      "# Grocery List\n\nGrocery Lists\nMilk\nEggs".toList := by
  refine ⟨?_, by decide⟩
  have e1 : ("---\n".toList : List Char) = '-' :: '-' :: '-' :: '\n' :: [] := rfl
  have e2 : ("\n---\n\n".toList : List Char) = '\n' :: '-' :: '-' :: '-' :: '\n' :: '\n' :: [] := rfl
  have e3 : ("# ".toList : List Char) = '#' :: ' ' :: [] := rfl
  have e4 : ("\n\n".toList : List Char) = '\n' :: '\n' :: [] := rfl
  have e5 : ("\n".toList : List Char) = '\n' :: [] := rfl
  rw [e1, e2, e3, e4, e5]
  simp [migrate_note, new_content, sepL, List.append_assoc]

/-- C2 (amended): a parsed note whose stored title contains the
placeholder is never added to the migration list; it is classified
SKIP-TEMPLATE when the title does not start with the `.notebook` marker
prefix, but the earlier marker check wins and classifies it SKIP-MARKER
when it does. -/
theorem C2_template_skip_amended (path content yaml body : List Char)
    (hp : parse_note_file content = some (yaml, body))
    (ht : containsSub templ (extract_title_from_yaml yaml) = true) :
    (notebookKey.isPrefixOf (extract_title_from_yaml yaml) = false →
        classify content = Classification.skipTemplate) ∧
    (notebookKey.isPrefixOf (extract_title_from_yaml yaml) = true →
        classify content = Classification.skipMarker) ∧
    analyzeFile path content = none := by
  refine ⟨?_, ?_, ?_⟩
  · intro hn; simp [classify, hp, hn, ht]
  · intro hn; simp [classify, hp, hn]
  · by_cases hn : notebookKey.isPrefixOf (extract_title_from_yaml yaml) = true
    · simp [analyzeFile, hp, hn]
    · simp only [Bool.not_eq_true] at hn
      simp [analyzeFile, hp, hn, ht]

/-- C2 counterexample: a parsed note whose stored title contains the
placeholder but starts with `.notebook` is classified SKIP-MARKER by the
driver, not SKIP-TEMPLATE as the claim states. -/
theorem C2_counterexample :
    parse_note_file "---\ntitle: .notebook\x7b\x7bx\x7d\x7d\n---\nbody".toList =
      some ("title: .notebook\x7b\x7bx\x7d\x7d".toList, "body".toList) ∧
    containsSub templ (extract_title_from_yaml "title: .notebook\x7b\x7bx\x7d\x7d".toList) = true ∧
    classify "---\ntitle: .notebook\x7b\x7bx\x7d\x7d\n---\nbody".toList =
      Classification.skipMarker ∧
    Classification.skipMarker ≠ Classification.skipTemplate := by
  refine ⟨by decide, by decide, by decide, by decide⟩

/-- C2 witness: a template title that does not start with `.notebook` is
classified SKIP-TEMPLATE and produces no migration record. -/
theorem C2_witness :
    classify "---\ntitle: \x7b\x7bdate\x7d\x7d Notes\n---\nbody".toList =
      Classification.skipTemplate ∧
    analyzeFile "a.md".toList "---\ntitle: \x7b\x7bdate\x7d\x7d Notes\n---\nbody".toList = none :=
  ⟨(C2_template_skip_amended "a.md".toList
      "---\ntitle: \x7b\x7bdate\x7d\x7d Notes\n---\nbody".toList
      "title: \x7b\x7bdate\x7d\x7d Notes".toList "body".toList
      (by decide) (by decide)).1 (by decide),
   (C2_template_skip_amended "a.md".toList
      "---\ntitle: \x7b\x7bdate\x7d\x7d Notes\n---\nbody".toList
      "title: \x7b\x7bdate\x7d\x7d Notes".toList "body".toList
      (by decide) (by decide)).2.2⟩

/-- C3: a parsed note whose stored title is empty is classified OK and is
never added to the migration list, whatever the body. -/
theorem C3_empty_title_ok (path content yaml body : List Char)
    (hp : parse_note_file content = some (yaml, body))
    (he : extract_title_from_yaml yaml = []) :
    classify content = Classification.ok ∧ analyzeFile path content = none := by
  constructor
  · simp [classify, hp, he, notebookKey, List.isPrefixOf, containsSub, templ, needs_migration]
  · simp [analyzeFile, hp, he, notebookKey, List.isPrefixOf, containsSub, templ, needs_migration]

/-- C3 witness: a note without any `title:` line has empty stored title
and is classified OK even though the body is arbitrary. -/
theorem C3_witness :
    classify "---\nfoo: bar\n---\nGrocery Lists".toList = Classification.ok ∧
    analyzeFile "a.md".toList "---\nfoo: bar\n---\nGrocery Lists".toList = none :=
  C3_empty_title_ok "a.md".toList _ "foo: bar".toList "Grocery Lists".toList
    (by decide) (by decide)

/-- C10: the helper `needs_migration`, taken on its own, returns `true`
for every non-empty stored title containing the placeholder, whatever
the first line is. -/
theorem C10_needs_migration_template (stored fl : List Char)
    (hne : stored ≠ []) (ht : containsSub templ stored = true) :
    needs_migration stored fl = true := by
  simp [needs_migration, hne, ht]

/-- C10 witness: a template title is flagged even when the first line
matches it exactly. -/
theorem C10_witness :
    needs_migration "\x7b\x7bdate\x7d\x7d".toList "\x7b\x7bdate\x7d\x7d".toList = true :=
  C10_needs_migration_template _ _ (by decide) (by decide)

/-- C4 (amended): the parser succeeds exactly when the text contains at
least two occurrences of the four-character delimiter `"---\n"` (the
marker token followed by a newline, not necessarily a whole line, and a
trailing `"---"` without a newline does not count), splitting at the
first two occurrences — witnessed by the two minimality clauses: no
delimiter occurs earlier than the one ending the preamble, and none
occurs in the remainder earlier than the one ending the metadata block,
which pins the decomposition to the leftmost two occurrences — where
the preamble before the first occurrence is ignored and need not be
empty, and returning metadata block and body trimmed of surrounding
whitespace; with fewer occurrences it returns a not-parseable result
instead of failing. -/
theorem C4_parser_amended (content : List Char) :
    ((parse_note_file content).isSome ↔
      ∃ a b c, content = a ++ sepL ++ b ++ sepL ++ c) ∧
    (∀ y bdy, parse_note_file content = some (y, bdy) →
      ∃ a b c, content = a ++ sepL ++ b ++ sepL ++ c ∧
        y = pyStrip b ∧ bdy = pyStrip c ∧
        (∀ x z, content = x ++ sepL ++ z → a.length ≤ x.length) ∧
        (∀ x z, b ++ sepL ++ c = x ++ sepL ++ z → b.length ≤ x.length)) := by
  constructor
  · constructor
    · intro hs
      obtain ⟨⟨y, bdy⟩, he⟩ := Option.isSome_iff_exists.mp hs
      obtain ⟨a, b, c, hd, _⟩ := parse_some_decomp content y bdy he
      exact ⟨a, b, c, hd⟩
    · rintro ⟨a, b, c, hd⟩
      exact parse_isSome_of_decomp content a b c hd
  · intro y bdy he
    exact parse_some_decomp content y bdy he

/-- C4 counterexample: a text with two whole lines consisting solely of
`---` (the second being the final line, without a trailing newline) is
not parseable, although the claim says the parser succeeds exactly when
two such marker lines occur. -/
theorem C4_counterexample :
    (splitLines "---\ntitle: a\n---".toList).count dashes = 2 ∧
    parse_note_file "---\ntitle: a\n---".toList = none := by
  refine ⟨by decide, by decide⟩

/-- C4 witness: a parseable note and its delimiter decomposition. -/
theorem C4_witness :
    (parse_note_file "---\nt: v\n---\nbody".toList).isSome :=
  (C4_parser_amended "---\nt: v\n---\nbody".toList).1.mpr
    ⟨[], "t: v\n".toList, "body".toList, by decide⟩

/-- C5 (amended): the title extractor returns the value of the first
`title:` line (later duplicates ignored), trimmed, with one leading
quote character stripped when present and one trailing quote character
stripped when present — independently, not requiring a matching pair —
and the empty string when no such line exists. -/
theorem C5_extractor_amended (yaml_content : List Char) :
    extract_title_from_yaml yaml_content = extractTitleSpec yaml_content := by
  unfold extract_title_from_yaml extractTitleSpec
  generalize splitLines yaml_content = ls
  induction ls with
  | nil => rfl
  | cons line rest ih =>
    by_cases hl : titleKey.isPrefixOf line = true
    · simp [extractFromLines, List.find?, hl, stripQuotes, stripLeadQuote, stripTrailQuote]
    · simp only [Bool.not_eq_true] at hl
      simp [extractFromLines, List.find?, hl, ih]

/-- C5 counterexample: a value with mismatched leading and trailing
quote characters has both stripped, although the claim says a quote
pair is stripped only when the two quotes match. -/
theorem C5_counterexample :
    extract_title_from_yaml "title: \x22abc\x27".toList = "abc".toList ∧
    "abc".toList ≠ "\x22abc\x27".toList := by
  refine ⟨by decide, by decide⟩

/-- C6 (amended): the body first line used in the migration decision is
the body's first line, trimmed, with all leading `#` characters and any
following whitespace stripped whenever the line begins with `#` — the
whitespace after the `#` characters is not required. -/
theorem C6_first_line_amended (content : List Char) :
    get_first_line_title content = firstLineSpec content := by
  unfold get_first_line_title firstLineSpec
  by_cases hc : content = []
  · simp [hc]
  · simp only [if_neg hc]
    cases hfl : pyStrip (content.takeWhile (fun c => c ≠ '\n')) with
    | nil => simp [stripHeading]
    | cons c rest =>
      by_cases hh : c = '#'
      · simp [stripHeading, hh]
      · simp [stripHeading, hh]

/-- C6 counterexample: a first line whose `#` characters are not
followed by whitespace still loses them, although the claim says such a
line keeps its `#` characters. -/
theorem C6_counterexample :
    get_first_line_title "#hashtag".toList = "hashtag".toList ∧
    "hashtag".toList ≠ "#hashtag".toList := by
  refine ⟨by decide, by decide⟩

/-- C7: when the pending list is non-empty and the confirmation response
is anything but `y` (case-insensitively), the run exits with status 0,
performs no writes, leaves every file byte-identical, and the backup
directory created earlier still exists. -/
theorem C7_cancelled_run (writeOk : List Char → Bool) (files : FileSys)
    (response : List Char)
    (hpend : files.filterMap (fun f => analyzeFile f.1 f.2) ≠ [])
    (hresp : pyLower response ≠ ['y']) :
    runMain writeOk files response = ⟨0, files, true, [], 0, 0⟩ := by
  have hf : files ≠ [] := by
    intro h
    rw [h] at hpend
    simp at hpend
  simp only [runMain]
  rw [if_neg hf, if_neg hpend, if_pos hresp]

/-- C7 witness: one pending note and the response `n` cancel the run
with exit code 0, untouched files, no writes, and the backup present. -/
theorem C7_witness :
    runMain (fun _ => true)
      [("a.md".toList, "---\ntitle: Grocery List\n---\nGrocery Lists\nMilk\nEggs".toList)]
      "n".toList =
    ⟨0, [("a.md".toList, "---\ntitle: Grocery List\n---\nGrocery Lists\nMilk\nEggs".toList)],
      true, [], 0, 0⟩ :=
  C7_cancelled_run (fun _ => true)
    [("a.md".toList, "---\ntitle: Grocery List\n---\nGrocery Lists\nMilk\nEggs".toList)]
    "n".toList (by decide) (by decide)

/-- C8: after an affirmative confirmation, every pending record is
attempted regardless of write failures, the number of successful
migrations is the number of records whose write succeeds, and the exit
status is 0 — one file's failure never aborts the batch. -/
theorem C8_per_file_failure (writeOk : List Char → Bool) (files : FileSys)
    (response : List Char)
    (hpend : files.filterMap (fun f => analyzeFile f.1 f.2) ≠ [])
    (hresp : pyLower response = ['y']) :
    (runMain writeOk files response).exitCode = 0 ∧
    (runMain writeOk files response).attempted =
      (files.filterMap (fun f => analyzeFile f.1 f.2)).length ∧
    (runMain writeOk files response).migratedCount =
      ((files.filterMap (fun f => analyzeFile f.1 f.2)).filter
        (fun r => writeOk r.1)).length := by
  have hf : files ≠ [] := by
    intro h
    rw [h] at hpend
    simp at hpend
  have hr : ¬ pyLower response ≠ ['y'] := by simp [hresp]
  simp only [runMain]
  rw [if_neg hf, if_neg hpend, if_neg hr]
  refine ⟨rfl, ?_, ?_⟩
  · exact migrateLoop_attempted writeOk _ files
  · exact migrateLoop_count writeOk _ files

/-- C8 witness: two pending notes with the first write failing — both
records are attempted, one migration succeeds, exit code is 0, and the
uppercase `Y` response is accepted case-insensitively. -/
theorem C8_witness :
    (runMain (fun p => !(p == "a.md".toList))
      [("a.md".toList, "---\ntitle: T1\n---\nbody1".toList),
       ("b.md".toList, "---\ntitle: T2\n---\nbody2".toList)]
      "Y".toList).exitCode = 0 ∧
    (runMain (fun p => !(p == "a.md".toList))
      [("a.md".toList, "---\ntitle: T1\n---\nbody1".toList),
       ("b.md".toList, "---\ntitle: T2\n---\nbody2".toList)]
      "Y".toList).attempted = 2 ∧
    (runMain (fun p => !(p == "a.md".toList))
      [("a.md".toList, "---\ntitle: T1\n---\nbody1".toList),
       ("b.md".toList, "---\ntitle: T2\n---\nbody2".toList)]
      "Y".toList).migratedCount = 1 := by
  have h := C8_per_file_failure (fun p => !(p == "a.md".toList))
    [("a.md".toList, "---\ntitle: T1\n---\nbody1".toList),
     ("b.md".toList, "---\ntitle: T2\n---\nbody2".toList)]
    "Y".toList (by decide) (by decide)
  refine ⟨h.1, ?_, ?_⟩
  · rw [h.2.1]; decide
  · rw [h.2.2]; decide

/-- C9 counterexample: a parseable note whose metadata block ends in
three dashes violates the round-trip claim — reserializing its parsed
metadata and body and parsing again yields a different metadata block. -/
theorem C9_counterexample :
    parse_note_file "---\nx--- ---\n---\nbody".toList =
      some ("x---".toList, "---\nbody".toList) ∧
    parse_note_file (reserialize "x---".toList "---\nbody".toList) ≠
      some ("x---".toList, "---\nbody".toList) := by
  refine ⟨by decide, by decide⟩

/-- C9 witness: an ordinary metadata block and body round-trip. -/
theorem C9_witness :
    parse_note_file (reserialize "title: x".toList "body".toList) =
      some ("title: x".toList, "body".toList) :=
  C9_roundtrip_amended "title: x".toList "body".toList
    (by decide) (by decide) (by decide) (by decide)
